import Mathlib

/-!
Shallow embedding of the `golang-start` products CRUD service.

The Go repository exposes a products table in SQLite through HTTP handlers.
We model:
  * the products table as a list of rows plus the AUTOINCREMENT counter,
  * the wall clock (`time.Now()`) as a stream `Nat → Nat` read at successive
    ticks, so each call to the clock is an independent read, exactly as in
    the Go source where every `time.Now()` is a separate call,
  * the model layer (`models/products.go`) as state-passing functions
    returning `Except`,
  * the handler layer (`handlers/products.go`) as functions from request
    data to a response value paired with the new state,
  * the `http.ServeMux` routing set up by `RegisterRoutes`.

Prices are `float64` in Go; the claims only compare prices with `0` and for
equality, so we model them as `Rat`, on which those comparisons agree with
the float comparisons for the representable values involved.
-/

namespace GolangStart

/-- `models.Product` (src/models/products.go, struct Product). -/
structure Product where
  id : Int
  name : String
  price : Rat
  stock : Int
  created_at : Nat
  updated_at : Nat
deriving DecidableEq, Repr, Inhabited

/-- The persisted state: the `products` table rows (in insertion order, as
SQLite keeps them for this workload), the next AUTOINCREMENT id, and the
ambient clock together with the current tick. -/
structure DBState where
  rows : List Product
  nextId : Int
  tick : Nat
  clock : Nat → Nat

/-- One call to `time.Now()`: read the clock at the current tick and
advance the tick. -/
def timeNow (s : DBState) : Nat × DBState :=
  (s.clock s.tick, { s with tick := s.tick + 1 })

/-- Errors surfaced by the model layer: `ErrProductNotFound`, or a storage
error carrying the driver message (never produced by this embedding, which
models a healthy database, but kept so handler branches match the source). -/
inductive ModelError where
  | productNotFound
  | storage (msg : String)
deriving DecidableEq, Repr

/-- `models.GetProductByID`: `SELECT ... WHERE id = ?` via `QueryRow` takes
the first matching row; no row gives `ErrProductNotFound`. -/
def GetProductByID (s : DBState) (id : Int) : Except ModelError Product :=
  match s.rows.find? (fun r => r.id == id) with
  | some r => .ok r
  | none => .error .productNotFound

/-- `models.GetAllProducts`: `SELECT ... ORDER BY id ASC`. -/
def GetAllProducts (s : DBState) : Except ModelError (List Product) :=
  .ok (List.insertionSort (fun a b => a.id ≤ b.id) s.rows)

/-- `models.CreateProduct`: INSERT with two separate `time.Now()` reads for
`created_at` and `updated_at`, then `LastInsertId`, then the returned object
gets its timestamps from two further `time.Now()` reads. -/
def CreateProduct (s : DBState) (p : Product) :
    Except ModelError Product × DBState :=
  let (t1, s1) := timeNow s
  let (t2, s2) := timeNow s1
  let newId := s2.nextId
  let row : Product :=
    { id := newId, name := p.name, price := p.price, stock := p.stock,
      created_at := t1, updated_at := t2 }
  let s3 : DBState :=
    { s2 with rows := s2.rows ++ [row], nextId := s2.nextId + 1 }
  let (t3, s4) := timeNow s3
  let (t4, s5) := timeNow s4
  (.ok { p with id := newId, created_at := t3, updated_at := t4 }, s5)

/-- `models.UpdateProduct`: `UPDATE products SET name,price,stock,updated_at
WHERE id = ?`; `RowsAffected == 0` means not found; on success the returned
object takes `updated_at` from one further `time.Now()` read and its other
fields from the caller's argument (no re-read). -/
def UpdateProduct (s : DBState) (p : Product) :
    Except ModelError Product × DBState :=
  let (t, s1) := timeNow s
  let affected := s1.rows.countP (fun r => r.id == p.id)
  let newRows := s1.rows.map (fun r =>
    if r.id == p.id then
      { r with name := p.name, price := p.price, stock := p.stock, updated_at := t }
    else r)
  let s2 : DBState := { s1 with rows := newRows }
  if affected == 0 then
    (.error .productNotFound, s2)
  else
    let (t2, s3) := timeNow s2
    (.ok { p with updated_at := t2 }, s3)

/-- `models.DeleteProduct`: `DELETE FROM products WHERE id = ?`;
`RowsAffected == 0` means not found. -/
def DeleteProduct (s : DBState) (id : Int) :
    Except ModelError Unit × DBState :=
  let affected := s.rows.countP (fun r => r.id == id)
  let s1 : DBState := { s with rows := s.rows.filter (fun r => !(r.id == id)) }
  if affected == 0 then (.error .productNotFound, s1) else (.ok (), s1)

/-- Substring containment on character lists (`LIKE '%term%'` semantics):
`subOf pat hay` is true when `pat` occurs contiguously in `hay`. -/
def subOf (pat hay : List Char) : Bool :=
  if pat.isPrefixOf hay then true
  else
    match hay with
    | [] => pat.isEmpty
    | _ :: t => subOf pat t

/-- Modelled from the spec: `models.SearchProduct` is called by the handlers
but its body is absent from `src/models/products.go`. Per the spec it is a
substring match on `name` (`LIKE '%term%'` semantics) returning the matching
rows, an empty sequence — never NotFound — when nothing matches. -/
def SearchProduct (s : DBState) (term : String) :
    Except ModelError (List Product) :=
  .ok (s.rows.filter (fun r => subOf term.toList r.name.toList))

/-- Modelled from the spec: `models.ProductsBulk` is called by the handlers
but its body is absent from `src/models/products.go`. Per the spec it inserts
the drafts one by one inside a single transaction (all-or-nothing); since the
handler has already validated every draft, in this embedding each insert
succeeds and the created rows are returned in order. -/
def ProductsBulk (s : DBState) (ps : List Product) :
    Except ModelError (List Product) × DBState :=
  match ps with
  | [] => (.ok [], s)
  | p :: rest =>
    match CreateProduct s p with
    | (.ok c, s1) =>
      match ProductsBulk s1 rest with
      | (.ok cs, s2) => (.ok (c :: cs), s2)
      | (.error e, s2) => (.error e, s2)
    | (.error e, s1) => (.error e, s1)

/-- Payload carried in a response envelope's `data` field. -/
inductive RespData where
  | empty
  | health (status : String)
  | product (p : Product)
  | products (l : List Product)
deriving DecidableEq, Repr

/-- The observable HTTP response: status line plus the uniform JSON envelope
(`code`, `message`, optional `data`). `writeError` writes no data field,
modelled as `RespData.empty`. -/
structure HttpResponse where
  status : Nat
  code : Nat
  message : String
  data : RespData
deriving DecidableEq, Repr

/-- `handlers.writeError`: status plus `errorResponse{Code: status, Message: msg}`. -/
def writeError (status : Nat) (msg : String) : HttpResponse :=
  { status := status, code := status, message := msg, data := .empty }

/-- `handlers.writeSuccess` with `successResponse{Code, Message, Data}` as at
every call site (the helper's body is boilerplate JSON encoding). -/
def writeSuccess (status : Nat) (code : Nat) (msg : String) (d : RespData) :
    HttpResponse :=
  { status := status, code := code, message := msg, data := d }

/-- Result of JSON-decoding a request body into the type a handler expects:
either it is absent/irrelevant, fails to decode, decodes into one
`models.Product` (absent JSON fields become zero values), or decodes into a
`[]models.Product`. -/
inductive ReqBody where
  | empty
  | malformed
  | product (p : Product)
  | products (ps : List Product)
deriving Repr

/-- `handlers.HealthCheck`: unconditionally 200 with `{"status":"ok"}`
wrapped in the success envelope; the request method is never inspected. -/
def HealthCheck : HttpResponse :=
  writeSuccess 200 200 "success" (.health "ok")

/-- `handlers.GetAllProducts`. -/
def GetAllProductsHandler (s : DBState) : HttpResponse × DBState :=
  match GetAllProducts s with
  | .error e =>
    (writeError 500 (match e with | .productNotFound => "product not found" | .storage m => m), s)
  | .ok l => (writeSuccess 200 200 "success" (.products l), s)

/-- `handlers.GetProduct`. -/
def GetProductHandler (s : DBState) (id : Int) : HttpResponse × DBState :=
  match GetProductByID s id with
  | .error .productNotFound => (writeError 404 "product not found", s)
  | .error (.storage m) => (writeError 500 m, s)
  | .ok p => (writeSuccess 200 200 "success" (.product p), s)

/-- `handlers.CreateProduct`: decode body, validate name/price/stock in that
order, then insert. -/
def CreateProductHandler (s : DBState) (body : ReqBody) : HttpResponse × DBState :=
  match body with
  | .product product =>
    if product.name = "" then (writeError 400 "name is required", s)
    else if product.price ≤ 0 then (writeError 400 "price must be greater than 0", s)
    else if product.stock < 0 then (writeError 400 "stock cannot be negative", s)
    else
      match CreateProduct s product with
      | (.ok created, s1) => (writeSuccess 201 201 "success" (.product created), s1)
      | (.error .productNotFound, s1) => (writeError 500 "product not found", s1)
      | (.error (.storage m), s1) => (writeError 500 m, s1)
  | _ => (writeError 400 "invalid request body", s)

/-- `handlers.UpdateProduct`: decode body, overwrite the body's id with the
path id, validate name/price/stock, then update. -/
def UpdateProductHandler (s : DBState) (id : Int) (body : ReqBody) :
    HttpResponse × DBState :=
  match body with
  | .product p0 =>
    let product := { p0 with id := id }
    if product.name = "" then (writeError 400 "name is required", s)
    else if product.price ≤ 0 then (writeError 400 "price must be greater than 0", s)
    else if product.stock < 0 then (writeError 400 "stock cannot be negative", s)
    else
      match UpdateProduct s product with
      | (.ok updated, s1) => (writeSuccess 200 200 "success" (.product updated), s1)
      | (.error .productNotFound, s1) => (writeError 404 "product not found", s1)
      | (.error (.storage m), s1) => (writeError 500 m, s1)
  | _ => (writeError 400 "invalid request body", s)

/-- `handlers.DeleteProduct`. -/
def DeleteProductHandler (s : DBState) (id : Int) : HttpResponse × DBState :=
  match DeleteProduct s id with
  | (.ok _, s1) => (writeSuccess 200 200 "success" .empty, s1)
  | (.error .productNotFound, s1) => (writeError 404 "product not found", s1)
  | (.error (.storage m), s1) => (writeError 500 m, s1)

/-- `handlers.SearchProducts`: GET only; `name` query parameter required
(`r.URL.Query().Get` yields `""` when the parameter is absent). -/
def SearchProductsHandler (s : DBState) (method : String) (qname : String) :
    HttpResponse × DBState :=
  if method ≠ "GET" then (writeError 405 "method not allowed", s)
  else if qname = "" then (writeError 400 "name is required", s)
  else
    match SearchProduct s qname with
    | .ok products => (writeSuccess 200 200 "success" (.products products), s)
    | .error e =>
      (writeError 500 (match e with | .productNotFound => "product not found" | .storage m => m), s)

/-- The validation loop in `handlers.ProductBulk`: first failing draft wins,
reporting its index; `none` when every draft is valid. -/
def validateDrafts (i : Nat) : List Product → Option String
  | [] => none
  | p :: ps =>
    if p.name = "" then some ("products[" ++ toString i ++ "].name is required")
    else if p.price ≤ 0 then some ("products[" ++ toString i ++ "].price must be greater than 0")
    else if p.stock < 0 then some ("products[" ++ toString i ++ "].stock cannot be negative")
    else validateDrafts (i + 1) ps

/-- `handlers.ProductBulk`: POST only; decode an array; reject an empty
array; validate every draft before any insert; only then call
`models.ProductsBulk`. -/
def ProductBulkHandler (s : DBState) (method : String) (body : ReqBody) :
    HttpResponse × DBState :=
  if method ≠ "POST" then (writeError 405 "method not allowed", s)
  else
    match body with
    | .products products =>
      if products.length = 0 then (writeError 400 "products is empty", s)
      else
        match validateDrafts 0 products with
        | some msg => (writeError 400 msg, s)
        | none =>
          match ProductsBulk s products with
          | (.ok created, s1) => (writeSuccess 201 201 "success" (.products created), s1)
          | (.error e, s1) =>
            (writeError 500 (match e with | .productNotFound => "product not found" | .storage m => m), s1)
    | _ => (writeError 400 "invalid request body", s)

/-- `strings.TrimPrefix` on character lists: drop `pre` when it is a prefix,
otherwise return the list unchanged. -/
def trimPre (pre s : List Char) : List Char :=
  if pre.isPrefixOf s then s.drop pre.length else s

/-- The digit-accumulation loop of `strconv.ParseInt`: consume decimal
digits into an accumulator, failing on the first non-digit. -/
def digitsValAux (acc : Nat) : List Char → Option Nat
  | [] => some acc
  | c :: cs =>
    if c.isDigit then digitsValAux (acc * 10 + (c.toNat - '0'.toNat)) cs
    else none

/-- The digits of a decimal numeral: `none` unless the list is nonempty and
all digits. -/
def digitsToNat : List Char → Option Nat
  | [] => none
  | cs => digitsValAux 0 cs

/-- The sign handling of `strconv.Atoi`: an optional single leading `+` or
`-` is consumed and determines the sign. -/
def signSplit (cs : List Char) : Int × List Char :=
  match cs with
  | c :: rest =>
    if c = '+' then (1, rest) else if c = '-' then (-1, rest) else (1, cs)
  | [] => (1, cs)

/-- `strconv.Atoi` on a 64-bit platform: optional leading sign, decimal
digits, and the value must fit a signed 64-bit integer; anything else is an
error (Go reports an out-of-range numeral as an error too, which is all the
handler looks at). -/
def atoi (cs : List Char) : Option Int :=
  let sd := signSplit cs
  match digitsToNat sd.2 with
  | none => none
  | some n =>
    let v := sd.1 * (n : Int)
    if -(2 ^ 63) ≤ v ∧ v ≤ 2 ^ 63 - 1 then some v else none

/-- `handlers.HandleProduct`: strip the `/api/products/` route prefix, take
the first path segment (`strings.SplitN(path, "/", 2)[0]`), parse it with
`Atoi` (400 on failure), then dispatch on the method — GET, PUT and DELETE
only; every other method, PATCH included, falls to the 405 default. -/
def HandleProduct (s : DBState) (method : String) (urlPath : List Char)
    (body : ReqBody) : HttpResponse × DBState :=
  let path := trimPre "/api/products/".toList urlPath
  let idStr := path.takeWhile (fun c => !(c == '/'))
  match atoi idStr with
  | none => (writeError 400 "invalid id", s)
  | some id =>
    match method with
    | "GET" => GetProductHandler s id
    | "PUT" => UpdateProductHandler s id body
    | "DELETE" => DeleteProductHandler s id
    | _ => (writeError 405 "method not allowed", s)

/-- The `http.ServeMux` wired by `handlers.RegisterRoutes`: exact patterns
`/api/health`, `/api/products`, `/api/products/search`, `/api/products/bulk`
and the subtree pattern `/api/products/` (the longest matching pattern wins,
so the exact ones shadow the subtree). Unmatched paths get the mux's own
404. -/
def serveMux (s : DBState) (method : String) (path : List Char)
    (body : ReqBody) (qname : String) : HttpResponse × DBState :=
  if path = "/api/health".toList then (HealthCheck, s)
  else if path = "/api/products".toList then
    match method with
    | "GET" => GetAllProductsHandler s
    | "POST" => CreateProductHandler s body
    | _ => (writeError 405 "method not allowed", s)
  else if path = "/api/products/search".toList then
    SearchProductsHandler s method qname
  else if path = "/api/products/bulk".toList then
    ProductBulkHandler s method body
  else if "/api/products/".toList.isPrefixOf path then
    HandleProduct s method path body
  else
    ({ status := 404, code := 404, message := "404 page not found", data := .empty }, s)

/-! ### Concrete fixtures used by counterexamples and witnesses -/

/-- A stored product, as created earlier in a run. -/
def prodA : Product :=
  { id := 1, name := "Apple", price := 99, stock := 10, created_at := 3, updated_at := 4 }

/-- A second stored product. -/
def prodB : Product :=
  { id := 2, name := "Banana", price := 5, stock := 0, created_at := 3, updated_at := 5 }

/-- A table holding `prodA` and `prodB`, clock at tick 6 of the identity
clock stream. -/
def baseState : DBState :=
  { rows := [prodA, prodB], nextId := 3, tick := 6, clock := fun i => i }

/-- The empty table right after startup. -/
def emptyState : DBState :=
  { rows := [], nextId := 1, tick := 0, clock := fun i => i }

/-- The decoded body of `{"name":"Test Product","price":99,"stock":10}`. -/
def draftT : Product :=
  { id := 0, name := "Test Product", price := 99, stock := 10, created_at := 0, updated_at := 0 }

/-- The decoded body of `{"price":123.45}`: absent JSON fields take their
zero values. -/
def patchBody : Product :=
  { id := 0, name := "", price := mkRat 12345 100, stock := 0, created_at := 0, updated_at := 0 }

/-- A valid bulk draft. -/
def goodDraft : Product :=
  { id := 0, name := "Good", price := 10, stock := 1, created_at := 0, updated_at := 0 }

/-- An invalid bulk draft (`price` is not > 0). -/
def badDraft : Product :=
  { id := 0, name := "Bad", price := 0, stock := 1, created_at := 0, updated_at := 0 }

/-- Observation helper for stating theorems: the row `getByID` returns, or
the zero product when the lookup fails. -/
def storedRow (s : DBState) (id : Int) : Product :=
  match GetProductByID s id with
  | .ok r => r
  | .error _ => default

/-- The state after creating `draftT` in the empty store. -/
def afterCreate : DBState := (CreateProduct emptyState draftT).2

/-- The per-row effect of the UPDATE statement in `models.UpdateProduct`:
rows matching the id get the new name/price/stock and the fresh
`updated_at`; all other rows are untouched. -/
def updateRow (p : Product) (t : Nat) (r : Product) : Product :=
  if r.id == p.id then
    { r with name := p.name, price := p.price, stock := p.stock, updated_at := t }
  else r

instance : IsTotal Product (fun a b => a.id ≤ b.id) :=
  ⟨fun a b => Int.le_total a.id b.id⟩

instance : IsTrans Product (fun a b => a.id ≤ b.id) :=
  ⟨fun _ _ _ h1 h2 => le_trans h1 h2⟩

/-! ### Helper lemmas -/

theorem digitsValAux_all_digits :
    ∀ (cs : List Char) (acc n : Nat), digitsValAux acc cs = some n →
      ∀ c ∈ cs, c.isDigit = true := by
  intro cs
  induction cs with
  | nil => intro _ _ _ c hc; cases hc
  | cons c cs ih =>
    intro acc n h d hd
    rw [digitsValAux] at h
    split at h
    · rcases List.mem_cons.mp hd with rfl | hd
      · assumption
      · exact ih _ _ h d hd
    · cases h

theorem digitsToNat_all_digits {cs : List Char} {n : Nat}
    (h : digitsToNat cs = some n) : ∀ c ∈ cs, c.isDigit = true := by
  cases cs with
  | nil => cases h
  | cons c cs => exact digitsValAux_all_digits _ _ _ h

theorem digit_ne_slash {c : Char} (h : c.isDigit = true) : (c == '/') = false := by
  cases hb : c == '/'
  · rfl
  · exact absurd h (by rw [eq_of_beq hb]; decide)

theorem atoi_no_slash {cs : List Char} {i : Int} (h : atoi cs = some i) :
    ∀ c ∈ cs, (c == '/') = false := by
  intro c hc
  simp only [atoi] at h
  cases hd : digitsToNat (signSplit cs).2 with
  | none => rw [hd] at h; cases h
  | some n =>
    cases cs with
    | nil => cases hc
    | cons c0 rest =>
      by_cases hp : c0 = '+'
      · have hd2 : digitsToNat rest = some n := by
          rw [signSplit, if_pos hp] at hd; exact hd
        rcases List.mem_cons.mp hc with rfl | hc
        · rw [hp]; decide
        · exact digit_ne_slash (digitsToNat_all_digits hd2 c hc)
      · by_cases hm : c0 = '-'
        · have hd2 : digitsToNat rest = some n := by
            rw [signSplit, if_neg hp, if_pos hm] at hd; exact hd
          rcases List.mem_cons.mp hc with rfl | hc
          · rw [hm]; decide
          · exact digit_ne_slash (digitsToNat_all_digits hd2 c hc)
        · have hd2 : digitsToNat (c0 :: rest) = some n := by
            rw [signSplit, if_neg hp, if_neg hm] at hd; exact hd
          exact digit_ne_slash (digitsToNat_all_digits hd2 c hc)

theorem takeWhile_of_all {p : Char → Bool} :
    ∀ {l : List Char}, (∀ c ∈ l, p c = true) → l.takeWhile p = l := by
  intro l
  induction l with
  | nil => intro _; rfl
  | cons c l ih =>
    intro h
    simp [List.takeWhile_cons, h c (List.mem_cons_self c l),
      ih fun d hd => h d (List.mem_cons_of_mem c hd)]

theorem takeWhile_append_stop {p : Char → Bool} {x : Char} :
    ∀ {l₁ : List Char} (l₂ : List Char), (∀ c ∈ l₁, p c = true) → p x = false →
      (l₁ ++ x :: l₂).takeWhile p = l₁ := by
  intro l₁
  induction l₁ with
  | nil => intro l₂ _ hx; simp [List.takeWhile_cons, hx]
  | cons c l₁ ih =>
    intro l₂ h hx
    simp only [List.cons_append, List.takeWhile_cons, h c (List.mem_cons_self c l₁), if_true]
    rw [ih l₂ (fun d hd => h d (List.mem_cons_of_mem c hd)) hx]

theorem isPrefixOf_append (l₁ l₂ : List Char) : l₁.isPrefixOf (l₁ ++ l₂) = true := by
  rw [List.isPrefixOf_iff_prefix]
  exact List.prefix_append l₁ l₂

theorem trimPre_append (pre x : List Char) : trimPre pre (pre ++ x) = x := by
  rw [trimPre, if_pos (isPrefixOf_append pre x), List.drop_left pre x]

theorem find?_filter_not (p : Product → Bool) :
    ∀ (l : List Product), (l.filter (fun a => !(p a))).find? p = none := by
  intro l
  induction l with
  | nil => rfl
  | cons a l ih =>
    cases hpa : p a
    · rw [List.filter_cons]
      simp only [hpa, Bool.not_false, if_pos]
      rw [List.find?_cons, hpa, ih]
    · rw [List.filter_cons]
      simp only [hpa, Bool.not_true, Bool.false_eq_true, if_neg, ih]
      exact ih

theorem find?_append_of_none {p : Product → Bool} :
    ∀ {l₁ : List Product} (l₂ : List Product), (∀ a ∈ l₁, p a = false) →
      (l₁ ++ l₂).find? p = l₂.find? p := by
  intro l₁
  induction l₁ with
  | nil => intro l₂ _; rfl
  | cons a l₁ ih =>
    intro l₂ h
    rw [List.cons_append, List.find?_cons, h a (List.mem_cons_self a l₁)]
    exact ih l₂ fun d hd => h d (List.mem_cons_of_mem a hd)

theorem validateDrafts_isSome_of_invalid :
    ∀ (ps : List Product) (i : Nat),
      (∃ p ∈ ps, p.name = "" ∨ p.price ≤ 0 ∨ p.stock < 0) →
      ∃ msg, validateDrafts i ps = some msg := by
  intro ps
  induction ps with
  | nil => intro _ h; rcases h with ⟨p, hp, _⟩; cases hp
  | cons p ps ih =>
    intro i h
    by_cases h1 : p.name = ""
    · exact ⟨_, by rw [validateDrafts, if_pos h1]⟩
    · by_cases h2 : p.price ≤ 0
      · exact ⟨_, by rw [validateDrafts, if_neg h1, if_pos h2]⟩
      · by_cases h3 : p.stock < 0
        · exact ⟨_, by rw [validateDrafts, if_neg h1, if_neg h2, if_pos h3]⟩
        · have htail : ∃ q ∈ ps, q.name = "" ∨ q.price ≤ 0 ∨ q.stock < 0 := by
            rcases h with ⟨q, hq, hbad⟩
            rcases List.mem_cons.mp hq with rfl | hq
            · rcases hbad with hb | hb | hb
              · exact absurd hb h1
              · exact absurd hb h2
              · exact absurd hb h3
            · exact ⟨q, hq, hbad⟩
          obtain ⟨msg, hmsg⟩ := ih (i + 1) htail
          exact ⟨msg, by rw [validateDrafts, if_neg h1, if_neg h2, if_neg h3, hmsg]⟩

theorem productBulk_rejects (s : DBState) (ps : List Product) (msg : String)
    (hne : ¬ ps.length = 0) (hmsg : validateDrafts 0 ps = some msg) :
    ProductBulkHandler s "POST" (.products ps) = (writeError 400 msg, s) := by
  unfold ProductBulkHandler
  rw [if_neg (fun hc => hc rfl)]
  dsimp only
  rw [if_neg hne, hmsg]

/-! ### Claims -/

/-- C1: the spec (and the repository's own tests, `TestPatchProductPriceOnlySuccess`,
`TestPatchProductEmptyBodyReturns400`, `TestPatchProductNotFoundReturns404`)
require `PATCH /products/{id}` to perform a partial update, but
`HandleProduct` dispatches only GET, PUT and DELETE: a PATCH request to an
existing product with body `{"price":123.45}` falls to the default branch
and is answered 405 "method not allowed", never reaching the claimed
200/400/404 behaviour. -/
theorem c1_patch_is_answered_405 :
    (serveMux baseState "PATCH" "/api/products/1".toList (.product patchBody) "").1 =
      writeError 405 "method not allowed" ∧
    (serveMux baseState "PATCH" "/api/products/1".toList (.product patchBody) "").2 =
      baseState := by
  exact ⟨by decide, rfl⟩

/-- C2: a bulk-create whose drafts contain at least one invalid draft (empty
name, price ≤ 0, or stock < 0) is answered 400 and leaves the state — in
particular the products table — exactly as it was: `ProductBulk` validates
every draft before issuing any insert. -/
theorem c2_bulk_invalid_draft_rejected_before_any_insert (s : DBState)
    (ps : List Product)
    (h : ∃ p ∈ ps, p.name = "" ∨ p.price ≤ 0 ∨ p.stock < 0) :
    (serveMux s "POST" "/api/products/bulk".toList (.products ps) "").1.status = 400 ∧
    (serveMux s "POST" "/api/products/bulk".toList (.products ps) "").2 = s := by
  have hroute : serveMux s "POST" "/api/products/bulk".toList (.products ps) "" =
      ProductBulkHandler s "POST" (.products ps) := rfl
  have hne : ¬ ps.length = 0 := by
    rcases h with ⟨p, hp, _⟩
    intro hl
    rw [List.length_eq_zero] at hl
    subst hl
    cases hp
  obtain ⟨msg, hmsg⟩ := validateDrafts_isSome_of_invalid ps 0 h
  rw [hroute, productBulk_rejects s ps msg hne hmsg]
  exact ⟨rfl, rfl⟩

/-- Witness for C2 at the batch `[goodDraft, badDraft]` from the spec's
scenario (`badDraft` has price 0) against the two-row `baseState`. -/
theorem c2_witness :
    (serveMux baseState "POST" "/api/products/bulk".toList
        (.products [goodDraft, badDraft]) "").1.status = 400 ∧
    (serveMux baseState "POST" "/api/products/bulk".toList
        (.products [goodDraft, badDraft]) "").2 = baseState :=
  c2_bulk_invalid_draft_rejected_before_any_insert baseState [goodDraft, badDraft]
    ⟨badDraft, by decide, by right; left; decide⟩

/-- C7: after a successful `delete(id)`, `getByID(id)` returns NotFound: the
DELETE statement removes every row whose id matches, so the subsequent
lookup finds none. -/
theorem c7_delete_then_getByID_not_found (s : DBState) (id : Int)
    (_succ : (DeleteProduct s id).1 = .ok ()) :
    GetProductByID (DeleteProduct s id).2 id = .error .productNotFound := by
  have h2 : (DeleteProduct s id).2.rows = s.rows.filter (fun r => !(r.id == id)) := by
    unfold DeleteProduct
    dsimp only
    split <;> rfl
  unfold GetProductByID
  rw [h2, find?_filter_not (fun r => r.id == id) s.rows]

/-- Witness for C7: deleting product 1 from `baseState` succeeds, and the
lookup afterwards reports NotFound. -/
theorem c7_witness :
    GetProductByID (DeleteProduct baseState 1).2 1 = .error .productNotFound :=
  c7_delete_then_getByID_not_found baseState 1 rfl

theorem subOf_correct : ∀ (hay pat : List Char), subOf pat hay = true ↔ pat <:+: hay := by
  intro hay
  induction hay with
  | nil =>
    intro pat
    cases pat with
    | nil => simp [subOf]
    | cons c t =>
      rw [subOf]
      simp [List.isPrefixOf, List.isEmpty]
  | cons a t ih =>
    intro pat
    rw [subOf]
    cases hpre : pat.isPrefixOf (a :: t)
    · rw [if_neg (by simp [hpre])]
      cases pat with
      | nil => simp at hpre
      | cons c u =>
        rw [ih (c :: u)]
        constructor
        · intro h
          exact (List.infix_cons_iff).mpr (Or.inr h)
        · intro h
          rcases (List.infix_cons_iff).mp h with hp | hs
          · exact absurd ((List.isPrefixOf_iff_prefix).mpr hp) (by simp [hpre])
          · exact hs
    · rw [if_pos rfl]
      simp only [true_iff]
      exact ((List.isPrefixOf_iff_prefix).mp hpre).isInfix

/-- C6: `search("x")` returns exactly the rows whose name contains `"x"` as
a substring (every matching row included, every other row excluded), and an
empty result is a success: the repository function always returns `ok`, and
the handler answers 200 whenever the query parameter is present.
(`models.SearchProduct` itself is absent from `src/models`, so it is
modelled from the spec's `LIKE '%term%'` description.) -/
theorem c6_search_returns_exactly_matching_rows (s : DBState) (term : String) :
    ∃ l, SearchProduct s term = .ok l ∧
      (∀ r ∈ s.rows, term.toList <:+: r.name.toList → r ∈ l) ∧
      (∀ r ∈ l, r ∈ s.rows ∧ term.toList <:+: r.name.toList) ∧
      (term ≠ "" → (SearchProductsHandler s "GET" term).1.status = 200) := by
  refine ⟨s.rows.filter (fun r => subOf term.toList r.name.toList), rfl, ?_, ?_, ?_⟩
  · intro r hr hsub
    exact List.mem_filter.mpr ⟨hr, (subOf_correct _ _).mpr hsub⟩
  · intro r hr
    exact ⟨(List.mem_filter.mp hr).1, (subOf_correct _ _).mp (List.mem_filter.mp hr).2⟩
  · intro hterm
    unfold SearchProductsHandler
    rw [if_neg (fun hc => hc rfl), if_neg hterm]
    rfl

/-- Witness for C6: searching `baseState` for `"App"` answers 200 via the
theorem's handler clause. -/
theorem c6_witness :
    (SearchProductsHandler baseState "GET" "App").1.status = 200 := by
  obtain ⟨l, _, _, _, h⟩ := c6_search_returns_exactly_matching_rows baseState "App"
  exact h (by decide)

/-- C8: `getAll` returns the table's products sorted by ascending id (a
permutation of the rows, sorted), and the empty table yields an empty list
as a success — the handler answers 200 with the list, never an error. -/
theorem c8_getAll_sorted_ascending (s : DBState) :
    ∃ l, GetAllProducts s = .ok l ∧ l.Perm s.rows ∧
      List.Sorted (fun a b => a.id ≤ b.id) l ∧
      (s.rows = [] → l = []) ∧
      (GetAllProductsHandler s).1 = writeSuccess 200 200 "success" (.products l) := by
  refine ⟨_, rfl, List.perm_insertionSort _ _, List.sorted_insertionSort _ _, ?_, rfl⟩
  intro h
  rw [h]
  rfl

/-- Witness for C8: on the empty table, `getAll` is `ok []`. -/
theorem c8_witness : GetAllProducts emptyState = .ok [] := by
  obtain ⟨l, h1, _, _, h4, _⟩ := c8_getAll_sorted_ascending emptyState
  rw [h1, h4 rfl]

/-- C9: the id field of a decoded request body never influences create or
full update. Two create bodies differing only in `id` produce identical
responses and identical states (the stored id is the datastore-assigned
`nextId`), and two PUT bodies differing only in `id` likewise: the handler
overwrites the body id with the path id before anything else uses it. -/
theorem c9_body_id_never_influences_create_or_update (s : DBState)
    (p : Product) (i j : Int) :
    CreateProductHandler s (.product { p with id := i }) =
      CreateProductHandler s (.product { p with id := j }) ∧
    ∀ pathId : Int,
      UpdateProductHandler s pathId (.product { p with id := i }) =
        UpdateProductHandler s pathId (.product { p with id := j }) := by
  cases p
  exact ⟨rfl, fun _ => rfl⟩

/-- C3 fails as stated: `CreateProduct` writes `created_at` and `updated_at`
with two separate `time.Now()` calls, so whenever the clock advances between
them the stored row has `created_at ≠ updated_at`. Here, creating the valid
draft `draftT` in the empty store under the identity clock stores the row
with `created_at = 0` and `updated_at = 1`. -/
theorem c3_counterexample :
    (draftT.name ≠ "" ∧ 0 < draftT.price ∧ 0 ≤ draftT.stock) ∧
    (storedRow afterCreate 1).name = draftT.name ∧
    (storedRow afterCreate 1).price = draftT.price ∧
    (storedRow afterCreate 1).stock = draftT.stock ∧
    (storedRow afterCreate 1).id = 1 ∧
    (storedRow afterCreate 1).created_at ≠ (storedRow afterCreate 1).updated_at := by
  exact ⟨by decide, rfl, by decide, rfl, rfl, by decide⟩

/-- C3 amended: for every valid draft, `create` then `getByID` on the
assigned id returns a stored record equal to the draft in name, price and
stock, with the fresh id assigned, and with `created_at ≤ updated_at`
(equality holds only when the clock does not advance between the two
`time.Now()` reads of the INSERT; the reads are independent, as the spec
itself notes in §4.2). -/
theorem c3_amended_create_then_getByID (s : DBState) (p : Product)
    (hfresh : ∀ r ∈ s.rows, r.id < s.nextId)
    (hclock : Monotone s.clock)
    (_hname : p.name ≠ "") (_hprice : 0 < p.price) (_hstock : 0 ≤ p.stock) :
    ∃ q row, (CreateProduct s p).1 = .ok q ∧ q.id = s.nextId ∧
      GetProductByID (CreateProduct s p).2 s.nextId = .ok row ∧
      row.name = p.name ∧ row.price = p.price ∧ row.stock = p.stock ∧
      row.id = s.nextId ∧ row.created_at ≤ row.updated_at := by
  refine ⟨{ p with id := s.nextId, created_at := s.clock (s.tick + 2), updated_at := s.clock (s.tick + 3) }, { id := s.nextId, name := p.name, price := p.price, stock := p.stock, created_at := s.clock s.tick, updated_at := s.clock (s.tick + 1) }, rfl, rfl, ?_, rfl, rfl, rfl, rfl, hclock (Nat.le_succ s.tick)⟩
  have hnone : ∀ r ∈ s.rows, ((fun r : Product => r.id == s.nextId) r) = false := by
    intro r hr
    exact beq_eq_false_iff_ne.mpr (ne_of_lt (hfresh r hr))
  unfold GetProductByID
  rw [show (CreateProduct s p).2.rows = s.rows ++ [{ id := s.nextId, name := p.name, price := p.price, stock := p.stock, created_at := s.clock s.tick, updated_at := s.clock (s.tick + 1) }] from rfl, find?_append_of_none _ hnone, List.find?_cons]
  simp only [beq_self_eq_true]

/-- Witness for C3 amended, at the empty store and the valid draft
`draftT`. -/
theorem c3_amended_witness :
    ∃ q row, (CreateProduct emptyState draftT).1 = .ok q ∧
      q.id = emptyState.nextId ∧
      GetProductByID (CreateProduct emptyState draftT).2 emptyState.nextId = .ok row ∧
      row.name = draftT.name ∧ row.price = draftT.price ∧
      row.stock = draftT.stock ∧ row.id = emptyState.nextId ∧
      row.created_at ≤ row.updated_at :=
  c3_amended_create_then_getByID emptyState draftT (by simp [emptyState])
    (fun _ _ h => h) (by decide) (by decide) (by decide)

theorem map_eq_self_of_eq {f : Product → Product} :
    ∀ {l : List Product}, (∀ a ∈ l, f a = a) → l.map f = l := by
  intro l
  induction l with
  | nil => intro _; rfl
  | cons a l ih =>
    intro h
    rw [List.map_cons, h a (List.mem_cons_self a l),
      ih fun d hd => h d (List.mem_cons_of_mem a hd)]

theorem updateProduct_not_found (s : DBState) (p : Product)
    (h : s.rows.countP (fun r => r.id == p.id) = 0) :
    UpdateProduct s p =
      (.error .productNotFound,
       { rows := s.rows.map (updateRow p (s.clock s.tick)), nextId := s.nextId,
         tick := s.tick + 1, clock := s.clock }) := by
  unfold UpdateProduct updateRow
  simp only [timeNow]
  rw [h]
  rfl

theorem updateProduct_found (s : DBState) (p : Product)
    (h : (s.rows.countP (fun r => r.id == p.id) == 0) = false) :
    UpdateProduct s p =
      (.ok { p with updated_at := s.clock (s.tick + 1) },
       { rows := s.rows.map (updateRow p (s.clock s.tick)), nextId := s.nextId,
         tick := s.tick + 2, clock := s.clock }) := by
  unfold UpdateProduct updateRow
  simp only [timeNow]
  rw [h]
  rfl

/-- C5: `update` on a nonexistent id returns NotFound and leaves the table's
rows unchanged; on an existing id every row keeps its `id` and `created_at`,
and each row's `updated_at` after the call is ≥ its previous value — the
matched row is refreshed to the current clock reading, the others are left
alone (hypothesis: no stored timestamp lies in the clock's future). -/
theorem c5_update_not_found_frame_and_timestamps (s : DBState) (p : Product) :
    ((∀ r ∈ s.rows, r.id ≠ p.id) →
      (UpdateProduct s p).1 = .error .productNotFound ∧
      (UpdateProduct s p).2.rows = s.rows) ∧
    ((∃ r ∈ s.rows, r.id = p.id) →
      (∀ r ∈ s.rows, r.updated_at ≤ s.clock s.tick) →
      List.Forall₂
        (fun r r' => r'.id = r.id ∧ r'.created_at = r.created_at ∧
          r.updated_at ≤ r'.updated_at)
        s.rows (UpdateProduct s p).2.rows) := by
  constructor
  · intro hne
    have hcount : s.rows.countP (fun r => r.id == p.id) = 0 :=
      List.countP_eq_zero.mpr fun r hr h => hne r hr (eq_of_beq h)
    have hmap : s.rows.map (updateRow p (s.clock s.tick)) = s.rows :=
      map_eq_self_of_eq fun r hr => by
        unfold updateRow
        rw [if_neg fun h => hne r hr (eq_of_beq h)]
    rw [updateProduct_not_found s p hcount]
    exact ⟨rfl, hmap⟩
  · intro hex hclk
    obtain ⟨r0, hr0, hid⟩ := hex
    have hpos : 0 < s.rows.countP (fun r => r.id == p.id) :=
      List.countP_pos_iff.mpr ⟨r0, hr0, beq_iff_eq.mpr hid⟩
    have hcount : (s.rows.countP (fun r => r.id == p.id) == 0) = false :=
      beq_eq_false_iff_ne.mpr (Nat.pos_iff_ne_zero.mp hpos)
    rw [updateProduct_found s p hcount]
    rw [List.forall₂_map_right_iff, List.forall₂_same]
    intro r hr
    unfold updateRow
    by_cases hb : (r.id == p.id) = true
    · rw [if_pos hb]
      exact ⟨rfl, rfl, hclk r hr⟩
    · rw [if_neg hb]
      exact ⟨rfl, rfl, le_refl _⟩

/-- Witness for C5: updating product 1 of `baseState` (rows stamped no later
than tick 6 of the identity clock) preserves ids and `created_at` and never
decreases `updated_at`. -/
theorem c5_witness :
    List.Forall₂
      (fun r r' => r'.id = r.id ∧ r'.created_at = r.created_at ∧
        r.updated_at ≤ r'.updated_at)
      baseState.rows
      (UpdateProduct baseState
        { id := 1, name := "Updated Product", price := 199, stock := 5,
          created_at := 0, updated_at := 0 }).2.rows :=
  (c5_update_not_found_frame_and_timestamps baseState
    { id := 1, name := "Updated Product", price := 199, stock := 5,
      created_at := 0, updated_at := 0 }).2
    ⟨prodA, by decide, by decide⟩ (by decide)

theorem route_products_sub (s : DBState) (m : String) (b : ReqBody) (q : String)
    (idStr : List Char) (hs : idStr ≠ "search".toList) (hb : idStr ≠ "bulk".toList) :
    serveMux s m ("/api/products/".toList ++ idStr) b q =
      HandleProduct s m ("/api/products/".toList ++ idStr) b := by
  have e1 : ("/api/products/".toList).length = 14 := by decide
  have e2 : ("/api/health".toList).length = 11 := by decide
  have e3 : ("/api/products".toList).length = 13 := by decide
  have h1 : ¬("/api/products/".toList ++ idStr = "/api/health".toList) := by
    intro h
    have hl := congrArg List.length h
    rw [List.length_append, e1, e2] at hl
    omega
  have h2 : ¬("/api/products/".toList ++ idStr = "/api/products".toList) := by
    intro h
    have hl := congrArg List.length h
    rw [List.length_append, e1, e3] at hl
    omega
  have h3 : ¬("/api/products/".toList ++ idStr = "/api/products/search".toList) := by
    intro h
    apply hs
    have hx : "/api/products/".toList ++ idStr =
        "/api/products/".toList ++ "search".toList := by rw [h]; decide
    exact List.append_cancel_left hx
  have h4 : ¬("/api/products/".toList ++ idStr = "/api/products/bulk".toList) := by
    intro h
    apply hb
    have hx : "/api/products/".toList ++ idStr =
        "/api/products/".toList ++ "bulk".toList := by rw [h]; decide
    exact List.append_cancel_left hx
  unfold serveMux
  rw [if_neg h1, if_neg h2, if_neg h3, if_neg h4,
    if_pos (isPrefixOf_append "/api/products/".toList idStr)]

theorem handleProduct_parsed (s : DBState) (m : String) (b : ReqBody)
    (idStr : List Char) (i : Int) (hp : atoi idStr = some i) :
    HandleProduct s m ("/api/products/".toList ++ idStr) b =
      (match m with
       | "GET" => GetProductHandler s i
       | "PUT" => UpdateProductHandler s i b
       | "DELETE" => DeleteProductHandler s i
       | _ => (writeError 405 "method not allowed", s)) := by
  simp only [HandleProduct]
  rw [trimPre_append,
    takeWhile_of_all (fun c hc => by rw [atoi_no_slash hp c hc]; rfl), hp]

theorem atoi_ne_search {idStr : List Char} {i : Int} (hp : atoi idStr = some i) :
    idStr ≠ "search".toList := by
  intro he
  rw [he, (by decide : atoi "search".toList = none)] at hp
  cases hp

theorem atoi_ne_bulk {idStr : List Char} {i : Int} (hp : atoi idStr = some i) :
    idStr ≠ "bulk".toList := by
  intro he
  rw [he, (by decide : atoi "bulk".toList = none)] at hp
  cases hp

/-- C4 fails as stated: the claim includes "any non-GET method on /health ⇒
405", but `HealthCheck` never inspects the request method — a POST to
`/api/health` is answered 200, not 405. -/
theorem c4_counterexample :
    (serveMux baseState "POST" "/api/health".toList .empty "").1.status = 200 ∧
    (serveMux baseState "POST" "/api/health".toList .empty "").1.status ≠ 405 := by
  exact ⟨rfl, by decide⟩

/-- C4 amended: every registered path except `/api/health` answers 405 to a
method its interface does not list — `/api/products` for non-GET/POST,
`/api/products/search` for non-GET, `/api/products/bulk` for non-POST, and
`/api/products/{id}` (with a parseable id) for non-GET/PUT/DELETE — while
`/api/health` answers 200 to every method, its handler never checking the
verb. -/
theorem c4_amended_unlisted_method_405 (s : DBState) (m : String) (b : ReqBody)
    (q : String) :
    (serveMux s m "/api/health".toList b q).1.status = 200 ∧
    (m ≠ "GET" → m ≠ "POST" →
      (serveMux s m "/api/products".toList b q).1.status = 405) ∧
    (m ≠ "GET" →
      (serveMux s m "/api/products/search".toList b q).1.status = 405) ∧
    (m ≠ "POST" →
      (serveMux s m "/api/products/bulk".toList b q).1.status = 405) ∧
    (∀ (idStr : List Char) (i : Int), atoi idStr = some i →
      m ≠ "GET" → m ≠ "PUT" → m ≠ "DELETE" →
      (serveMux s m ("/api/products/".toList ++ idStr) b q).1.status = 405) := by
  refine ⟨rfl, ?_, ?_, ?_, ?_⟩
  · have hroute : serveMux s m "/api/products".toList b q =
        (match m with
         | "GET" => GetAllProductsHandler s
         | "POST" => CreateProductHandler s b
         | _ => (writeError 405 "method not allowed", s)) := by
      unfold serveMux
      rw [if_neg (by decide), if_pos rfl]
    intro hm1 hm2
    rw [hroute]
    split
    · exact absurd rfl hm1
    · exact absurd rfl hm2
    · rfl
  · intro hm
    have hroute : serveMux s m "/api/products/search".toList b q =
        SearchProductsHandler s m q := by
      unfold serveMux
      rw [if_neg (by decide), if_neg (by decide), if_pos rfl]
    rw [hroute]
    unfold SearchProductsHandler
    rw [if_pos hm]
    rfl
  · intro hm
    have hroute : serveMux s m "/api/products/bulk".toList b q =
        ProductBulkHandler s m b := by
      unfold serveMux
      rw [if_neg (by decide), if_neg (by decide), if_neg (by decide), if_pos rfl]
    rw [hroute]
    unfold ProductBulkHandler
    rw [if_pos hm]
    rfl
  · have key : ∀ (idStr : List Char) (i : Int), atoi idStr = some i →
        serveMux s m ("/api/products/".toList ++ idStr) b q =
          (match m with
           | "GET" => GetProductHandler s i
           | "PUT" => UpdateProductHandler s i b
           | "DELETE" => DeleteProductHandler s i
           | _ => (writeError 405 "method not allowed", s)) := by
      intro idStr i hp
      rw [route_products_sub s m b q idStr (atoi_ne_search hp) (atoi_ne_bulk hp),
        handleProduct_parsed s m b idStr i hp]
    intro idStr i hp hm1 hm2 hm3
    rw [key idStr i hp]
    split
    · exact absurd rfl hm1
    · exact absurd rfl hm2
    · exact absurd rfl hm3
    · rfl

/-- Witness for C4 amended, with method `"PATCH"` (unlisted everywhere) and
id segment `"7"`. -/
theorem c4_amended_witness :
    (serveMux baseState "PATCH" "/api/health".toList .empty "").1.status = 200 ∧
    (serveMux baseState "PATCH" "/api/products".toList .empty "").1.status = 405 ∧
    (serveMux baseState "PATCH" "/api/products/search".toList .empty "").1.status = 405 ∧
    (serveMux baseState "PATCH" "/api/products/bulk".toList .empty "").1.status = 405 ∧
    (serveMux baseState "PATCH" ("/api/products/".toList ++ "7".toList) .empty "").1.status = 405 := by
  obtain ⟨h1, h2, h3, h4, h5⟩ :=
    c4_amended_unlisted_method_405 baseState "PATCH" .empty ""
  exact ⟨h1, h2 (by decide) (by decide), h3 (by decide), h4 (by decide),
    h5 "7".toList 7 (by decide) (by decide) (by decide) (by decide)⟩

/-- C10 fails as stated: `strconv.Atoi` also rejects decimal numerals that
overflow a signed 64-bit integer, so the all-digit segment
`99999999999999999999` — a decimal integer string — is answered 400, not
dispatched: "only a non-integer segment yields 400" is too strong. -/
theorem c10_counterexample :
    (∀ c ∈ "99999999999999999999".toList, c.isDigit = true) ∧
    (serveMux baseState "GET" "/api/products/99999999999999999999".toList
        .empty "").1 = writeError 400 "invalid id" := by
  exact ⟨by decide, by decide⟩

/-- C10 amended: the id segment parser accepts any decimal integer that fits
a signed 64-bit integer, including zero and negatives; such a request is
dispatched and, when the table holds only positive ids and the parsed id is
non-positive, answered 404 (product not found) rather than 400; a first
segment that fails 64-bit integer parsing is answered 400 "invalid id"; and
any path segments after the id are ignored. -/
theorem c10_amended_id_parsing (s : DBState) :
    (∀ (idStr : List Char) (i : Int), atoi idStr = some i → i ≤ 0 →
      (∀ r ∈ s.rows, 0 < r.id) →
      (serveMux s "GET" ("/api/products/".toList ++ idStr) .empty "").1 =
        writeError 404 "product not found") ∧
    (∀ (idStr : List Char), (∀ c ∈ idStr, (c == '/') = false) →
      atoi idStr = none →
      (HandleProduct s "GET" ("/api/products/".toList ++ idStr) .empty).1 =
        writeError 400 "invalid id") ∧
    (∀ (idStr rest : List Char) (m : String) (b : ReqBody) (i : Int),
      atoi idStr = some i →
      HandleProduct s m ("/api/products/".toList ++ idStr ++ '/' :: rest) b =
        HandleProduct s m ("/api/products/".toList ++ idStr) b) := by
  refine ⟨?_, ?_, ?_⟩
  · intro idStr i hp hle hpos
    rw [route_products_sub s "GET" .empty "" idStr (atoi_ne_search hp)
        (atoi_ne_bulk hp),
      handleProduct_parsed s "GET" .empty idStr i hp]
    have hget : GetProductByID s i = .error .productNotFound := by
      have hfind : s.rows.find? (fun r => r.id == i) = none := by
        apply List.find?_eq_none.mpr
        intro r hr h
        have hri : r.id = i := eq_of_beq h
        have hpr := hpos r hr
        omega
      unfold GetProductByID
      rw [hfind]
    show (GetProductHandler s i).1 = writeError 404 "product not found"
    unfold GetProductHandler
    rw [hget]
  · intro idStr hslash hp
    simp only [HandleProduct]
    rw [trimPre_append,
      takeWhile_of_all (fun c hc => by simp [hslash c hc]), hp]
  · intro idStr rest m b i hp
    have hseg1 :
        (trimPre "/api/products/".toList
          ("/api/products/".toList ++ (idStr ++ '/' :: rest))).takeWhile
            (fun c => !(c == '/')) = idStr := by
      rw [trimPre_append]
      exact takeWhile_append_stop rest
        (fun c hc => by simp [atoi_no_slash hp c hc]) (by decide)
    have hseg2 :
        (trimPre "/api/products/".toList
          ("/api/products/".toList ++ idStr)).takeWhile
            (fun c => !(c == '/')) = idStr := by
      rw [trimPre_append]
      exact takeWhile_of_all fun c hc => by simp [atoi_no_slash hp c hc]
    rw [List.append_assoc]
    simp only [HandleProduct]
    rw [hseg1, hseg2]

/-- Witness for C10 amended: `-5` parses and is answered 404 on `baseState`
(whose ids are 1 and 2), `abc` is answered 400, and a trailing
`/extra/stuff` after the id `0` changes nothing. -/
theorem c10_amended_witness :
    (serveMux baseState "GET" ("/api/products/".toList ++ "-5".toList)
        .empty "").1 = writeError 404 "product not found" ∧
    (HandleProduct baseState "GET" ("/api/products/".toList ++ "abc".toList)
        .empty).1 = writeError 400 "invalid id" ∧
    HandleProduct baseState "GET"
        ("/api/products/".toList ++ "0".toList ++ '/' :: "extra/stuff".toList)
        .empty =
      HandleProduct baseState "GET" ("/api/products/".toList ++ "0".toList)
        .empty := by
  obtain ⟨h1, h2, h3⟩ := c10_amended_id_parsing baseState
  exact ⟨h1 "-5".toList (-5) (by decide) (by decide) (by decide),
    h2 "abc".toList (by decide) (by decide),
    h3 "0".toList "extra/stuff".toList "GET" .empty 0 (by decide)⟩

end GolangStart
